import Mathlib

/-!
Verification development for the MRi import-and-cataloging pipeline.

The Python sources are embedded shallowly:
* pure helpers become Lean functions over `List Char` / `String`;
* Python `float` values arising here are always exact decimal literals, so
  they are modelled by the exact representation `PyFloat` (an integer
  mantissa scaled by a power of ten); comparisons are integer
  cross-multiplications and agree with rational-value comparisons
  (`PyFloat.toRat_lt_iff` etc.).  No rounding behaviour of binary floats
  is observable in the comparisons the code performs on these inputs;
* the file-backed catalog documents become explicit record states, and the
  whole-document read/modify/write operations become functions on them;
* the import orchestrator `_import_dicom` becomes a function from a
  configuration (which external step fails, the child's PROGRESS reports,
  the tool's exit code, ...) to a final state plus the list of job-record
  updates it performed.
-/

namespace MRi

/-! ## Character-level parsing helpers

Models of Python's `str.strip`, `str.split`, `float(...)` and `int(...)`
on the plain decimal strings the pipeline feeds them.  `float`/`int` are
modelled as `Option`-returning parsers: `none` plays the role of the
`ValueError` the Python builtins raise on malformed input.
-/

/-- Split a character list at every occurrence of characters satisfying `p`
(the separators are dropped, empty chunks are kept), like Python
`str.split(sep)` for a one-character separator. -/
def splitOnPred (p : Char → Bool) : List Char → List Char → List (List Char)
  | [], acc => [acc.reverse]
  | c :: rest, acc =>
    if p c then acc.reverse :: splitOnPred p rest []
    else splitOnPred p rest (c :: acc)

/-- Model of Python `str.strip()`: drop whitespace from both ends. -/
def stripWS (cs : List Char) : List Char :=
  ((cs.dropWhile Char.isWhitespace).reverse.dropWhile Char.isWhitespace).reverse

/-- Digit run to a natural number (most significant digit first). -/
def digitsToNat (cs : List Char) : Nat :=
  cs.foldl (fun n c => 10 * n + (c.toNat - 48)) 0

/-- Parse a nonempty all-digit run, else fail. -/
def parseDigits (cs : List Char) : Option Nat :=
  if cs ≠ [] ∧ cs.all Char.isDigit then some (digitsToNat cs) else none

/-- Strip one optional leading sign, returning the sign as `1` or `-1`. -/
def takeSign : List Char → Int × List Char
  | '-' :: rest => (-1, rest)
  | '+' :: rest => (1, rest)
  | cs => (1, cs)

/-- Exact value of a Python float parsed from a decimal string:
`mant / 10 ^ exp`.  Two representations may denote the same value;
comparisons go through cross-multiplication, never through this syntax. -/
structure PyFloat where
  mant : Int
  exp : Nat
  deriving DecidableEq, Repr

/-- The rational value denoted by a `PyFloat`. -/
def PyFloat.toRat (x : PyFloat) : Rat :=
  (x.mant : Rat) / ((10 : Rat) ^ x.exp)

/-- Value-level strict order on `PyFloat`, by cross-multiplication. -/
def PyFloat.vlt (x y : PyFloat) : Prop :=
  x.mant * 10 ^ y.exp < y.mant * 10 ^ x.exp

/-- Value-level equality on `PyFloat`, by cross-multiplication. -/
def PyFloat.veq (x y : PyFloat) : Prop :=
  x.mant * 10 ^ y.exp = y.mant * 10 ^ x.exp

instance : DecidableRel PyFloat.vlt := fun _ _ =>
  inferInstanceAs (Decidable (_ < _))

instance : DecidableRel PyFloat.veq := fun _ _ =>
  inferInstanceAs (Decidable (_ = _))

/-- Absolute value, as Python `abs` on floats. -/
def PyFloat.vabs (x : PyFloat) : PyFloat :=
  ⟨|x.mant|, x.exp⟩

theorem PyFloat.toRat_lt_iff (x y : PyFloat) : x.toRat < y.toRat ↔ x.vlt y := by
  unfold PyFloat.toRat PyFloat.vlt
  rw [div_lt_div_iff₀ (by positivity) (by positivity)]
  constructor
  · intro h
    exact_mod_cast h
  · intro h
    exact_mod_cast h

theorem PyFloat.toRat_eq_iff (x y : PyFloat) : x.toRat = y.toRat ↔ x.veq y := by
  unfold PyFloat.toRat PyFloat.veq
  rw [div_eq_div_iff (by positivity) (by positivity)]
  constructor
  · intro h
    exact_mod_cast h
  · intro h
    exact_mod_cast h

theorem PyFloat.toRat_vabs (x : PyFloat) : x.vabs.toRat = |x.toRat| := by
  unfold PyFloat.toRat PyFloat.vabs
  rw [abs_div]
  simp [abs_of_nonneg (by positivity : (0:Rat) ≤ (10:Rat) ^ x.exp)]

/-- Parse the mantissa of a decimal literal: `d+`, `d+.d*`, `.d+` or
`d+.` (both parts may not be empty at once), yielding
`(numerator, number of fractional digits)`. -/
def parseMantissa (cs : List Char) : Option (Nat × Nat) :=
  match splitOnPred (fun c => c = '.') cs [] with
  | [intPart] =>
    (parseDigits intPart).map (fun n => (n, 0))
  | [intPart, fracPart] =>
    if (intPart ≠ [] ∨ fracPart ≠ []) ∧
        intPart.all Char.isDigit ∧ fracPart.all Char.isDigit then
      some (digitsToNat intPart * 10 ^ fracPart.length + digitsToNat fracPart,
        fracPart.length)
    else none
  | _ => none

/-- Parse an exponent: optional sign, then a nonempty digit run. -/
def parseExponent (cs : List Char) : Option Int :=
  let (sgn, cs) := takeSign cs
  (parseDigits cs).map (fun n => sgn * n)

/-- Model of Python `float(s)` on plain decimal literals (optional
whitespace, optional sign, decimal mantissa, optional `e`/`E` exponent),
returning `none` where `float` raises `ValueError`. -/
def parseFloat (s : String) : Option PyFloat :=
  let cs := stripWS s.toList
  let (sgn, cs) := takeSign cs
  match splitOnPred (fun c => c = 'e' ∨ c = 'E') cs [] with
  | [mant] =>
    (parseMantissa mant).map (fun mp => ⟨sgn * mp.1, mp.2⟩)
  | [mant, ex] => do
    let mp ← parseMantissa mant
    let e ← parseExponent ex
    if 0 ≤ e then
      pure ⟨sgn * mp.1 * 10 ^ e.toNat, mp.2⟩
    else
      pure ⟨sgn * mp.1, mp.2 + (-e).toNat⟩
  | _ => none

/-- Model of Python `int(s)`: optional whitespace, optional sign, then a
nonempty digit run (a decimal point is an error). -/
def parseIntPy (s : String) : Option Int :=
  let cs := stripWS s.toList
  let (sgn, cs) := takeSign cs
  (parseDigits cs).map (fun n => sgn * n)

/-! ## Orientation classifier  (`process_mri.get_orientation_label`)

```python
def get_orientation_label(iop_str):
    if not iop_str: return ""
    try:
        nums = [abs(float(x.strip())) for x in iop_str.split('\\') if x.strip()]
        if len(nums) < 6: return ""
        if nums[0] > 0.7 and nums[4] > 0.7: return "Axial"
        if nums[0] > 0.7 and nums[5] > 0.7: return "Coronal"
        if nums[1] > 0.7 and nums[5] > 0.7: return "Sagittal"
    except: pass
    return ""
```
The string is split on backslashes only; a stripped token that `float`
cannot parse raises, which the bare `except` turns into `""`. -/

/-- The threshold `0.7` as an exact decimal. -/
def ptSeven : PyFloat := ⟨7, 1⟩

/-- Tokens the classifier feeds to `float`: split the raw string on
backslashes, strip each token, keep the nonempty ones. -/
def orientationTokens (s : String) : List (List Char) :=
  ((splitOnPred (fun c => c = '\\') s.toList []).map stripWS).filter
    (fun t => t ≠ [])

def get_orientation_label (iop : Option String) : String :=
  match iop with
  | none => ""
  | some s =>
    if s = "" then ""
    else
      match (orientationTokens s).mapM (fun t => parseFloat (String.mk t)) with
      | none => ""
      | some vals =>
        if (vals.map PyFloat.vabs).length < 6 then ""
        else if PyFloat.vlt ptSeven ((vals.map PyFloat.vabs).getD 0 ⟨0, 0⟩) ∧
            PyFloat.vlt ptSeven ((vals.map PyFloat.vabs).getD 4 ⟨0, 0⟩) then "Axial"
        else if PyFloat.vlt ptSeven ((vals.map PyFloat.vabs).getD 0 ⟨0, 0⟩) ∧
            PyFloat.vlt ptSeven ((vals.map PyFloat.vabs).getD 5 ⟨0, 0⟩) then "Coronal"
        else if PyFloat.vlt ptSeven ((vals.map PyFloat.vabs).getD 1 ⟨0, 0⟩) ∧
            PyFloat.vlt ptSeven ((vals.map PyFloat.vabs).getD 5 ⟨0, 0⟩) then "Sagittal"
        else ""

/-- Modelled from the spec's classification rule (§4.3), stated directly on
the list of magnitudes `[r1, r2, r3, c1, c2, c3]` as rational values; used
to compare the code's classifier against the spec's words. -/
def orientationFromMagnitudes (nums : List Rat) : String :=
  if nums.length < 6 then ""
  else if nums.getD 0 0 > 7/10 ∧ nums.getD 4 0 > 7/10 then "Axial"
  else if nums.getD 0 0 > 7/10 ∧ nums.getD 5 0 > 7/10 then "Coronal"
  else if nums.getD 1 0 > 7/10 ∧ nums.getD 5 0 > 7/10 then "Sagittal"
  else ""

/-! ## Slice sequencer  (`process_mri.main`, lines 137-154)

```python
try: sloc = float(meta.get("SliceLocation") or 0)
except: sloc = 0.0
try: inum = int(meta.get("InstanceNumber") or 0)
except: inum = 0
slices.append({"path": f_path, "meta": meta, "sort_key": (sloc, inum, f_path)})
slices.sort(key=lambda x: x["sort_key"])
```
A slice is modelled by its file path together with the two metadata tags
that enter the sort key (the remaining tags do not affect ordering). -/
structure Slice where
  path : String
  sliceLocation : Option String
  instanceNumber : Option String
  deriving DecidableEq, Repr

/-- First key component: `float(meta.get("SliceLocation") or 0)` with the
bare `except` defaulting to `0.0`; a missing tag or an empty string is
falsy in Python, so it also becomes `0`. -/
def slocKey (s : Slice) : PyFloat :=
  match s.sliceLocation with
  | none => ⟨0, 0⟩
  | some str => if str = "" then ⟨0, 0⟩ else (parseFloat str).getD ⟨0, 0⟩

/-- Second key component: `int(meta.get("InstanceNumber") or 0)` with the
bare `except` defaulting to `0`. -/
def inumKey (s : Slice) : Int :=
  match s.instanceNumber with
  | none => 0
  | some str => if str = "" then 0 else (parseIntPy str).getD 0

/-- Lexicographic comparison of character lists (Python compares strings
code point by code point), as an executable boolean. -/
def charListLE : List Char → List Char → Bool
  | [], _ => true
  | _ :: _, [] => false
  | a :: as, b :: bs =>
    if a < b then true else if b < a then false else charListLE as bs

theorem charListLE_iff_not_lex :
    ∀ as bs : List Char, charListLE as bs = true ↔ ¬ List.Lex (· < ·) bs as := by
  intro as
  induction as with
  | nil =>
    intro bs
    simp only [charListLE]
    constructor
    · intro _ h
      cases h
    · intro _
      trivial
  | cons a as ih =>
    intro bs
    cases bs with
    | nil =>
      simp only [charListLE]
      constructor
      · intro h
        cases h
      · intro h
        exact absurd (List.Lex.nil) h
    | cons b bs =>
      simp only [charListLE]
      by_cases hab : a < b
      · simp only [hab, if_true, true_iff]
        intro h
        cases h with
        | cons h => exact absurd hab (lt_irrefl _)
        | rel h => exact absurd hab (asymm h)
      · by_cases hba : b < a
        · simp only [if_neg hab, if_pos hba]
          constructor
          · intro h
            exact Bool.noConfusion h
          · intro h
            exact absurd (List.Lex.rel hba) h
        · have heq : a = b := le_antisymm (le_of_not_lt hba) (le_of_not_lt hab)
          subst heq
          simp only [hab, if_false, if_neg hab]
          rw [ih bs]
          constructor
          · intro h hlex
            cases hlex with
            | cons h2 => exact h h2
            | rel h2 => exact absurd h2 (lt_irrefl _)
          · intro h h2
            exact h (List.Lex.cons h2)

theorem charListLE_iff (as bs : List Char) : charListLE as bs = true ↔ as ≤ bs := by
  rw [charListLE_iff_not_lex, ← not_lt]
  exact Iff.rfl

/-- The sort key `(sloc, inum, path)` as a lexicographic triple of
rational value, integer and character list, ordered exactly as Python
orders the tuple. -/
def sortKeyQ (s : Slice) : Lex (Rat × Lex (Int × List Char)) :=
  toLex ((slocKey s).toRat, toLex (inumKey s, s.path.toList))

/-- Executable form of the key comparison: cross-multiplication on the
first component, then the integer, then the path characters. -/
def sliceLE (a b : Slice) : Prop :=
  PyFloat.vlt (slocKey a) (slocKey b) ∨
    (PyFloat.veq (slocKey a) (slocKey b) ∧
      (inumKey a < inumKey b ∨
        (inumKey a = inumKey b ∧ charListLE a.path.toList b.path.toList = true)))

instance : DecidableRel sliceLE := fun a b =>
  inferInstanceAs (Decidable (PyFloat.vlt (slocKey a) (slocKey b) ∨
    (PyFloat.veq (slocKey a) (slocKey b) ∧
      (inumKey a < inumKey b ∨
        (inumKey a = inumKey b ∧ charListLE a.path.toList b.path.toList = true)))))

theorem sliceLE_iff (a b : Slice) : sliceLE a b ↔ sortKeyQ a ≤ sortKeyQ b := by
  unfold sliceLE sortKeyQ
  rw [Prod.Lex.le_iff, Prod.Lex.le_iff]
  simp only [PyFloat.toRat_lt_iff, PyFloat.toRat_eq_iff, charListLE_iff]

instance : IsTotal Slice sliceLE :=
  ⟨fun a b => by
    rw [sliceLE_iff, sliceLE_iff]
    exact le_total _ _⟩

instance : IsTrans Slice sliceLE :=
  ⟨fun a b c hab hbc => by
    rw [sliceLE_iff] at hab hbc ⊢
    exact le_trans hab hbc⟩

/-- The slice sequencer: Python's `list.sort` is a stable sort by the key
tuple, modelled by the stable `List.insertionSort` under `sliceLE`. -/
def sequenceSlices (l : List Slice) : List Slice :=
  List.insertionSort sliceLE l

/-! ## Converter loop  (`process_mri.main`, lines 181-192)

```python
for i, slc in enumerate(slices):
    out_filename = f"{i:04d}.jpg"
    try:
        convert_image(slc["path"], out_path, ...)
        series_info["images"].append(out_filename)
    except Exception as e:
        print(f"Error converting {slc['path']}: {e}")
```
`ok i` records whether the `dcmj2pnm` invocation for the slice at position
`i` succeeded; a failed slice is logged and skipped, the loop continues. -/

/-- Output image name for the slice at zero-based position `i`:
`f"{i:04d}.jpg"`. -/
def imageName (i : Nat) : String :=
  String.mk (List.replicate (4 - (toString i).length) '0') ++ toString i ++ ".jpg"

def convertLoop (ok : Nat → Bool) : Nat → List Slice → List String
  | _, [] => []
  | i, _ :: rest =>
    if ok i then imageName i :: convertLoop ok (i + 1) rest
    else convertLoop ok (i + 1) rest

def convertSeriesImages (slices : List Slice) (ok : Nat → Bool) : List String :=
  convertLoop ok 0 slices

/-! ## Catalog documents

`patient-metadata.json` (patient registry) and `project-metadata.json`
(global registry) from `patient_manager.py` / `project_manager.py`.
Fields that are pure filesystem artifacts (the on-disk `path` of a
project) are not part of the model. -/

structure Study where
  studyId : String
  studyDate : String
  projectId : String
  seriesCount : Nat
  deriving DecidableEq, Repr

structure Patient where
  patientId : String
  name : String
  mrn : String
  dob : String
  created : String
  lastOpened : String
  studyCount : Nat
  seriesCount : Nat
  studies : List Study
  deriving DecidableEq, Repr

/-- One entry of the global registry's `recentProjects` list
(`project_manager._add_to_recent_projects`). -/
structure RecentEntry where
  projectId : String
  name : String
  lastOpened : String
  seriesCount : Nat
  patient : String
  thumbnail : String
  deriving DecidableEq, Repr

structure Catalog where
  patients : List Patient
  recentProjects : List RecentEntry
  deriving DecidableEq, Repr

/-- Modify the first element satisfying `p` (Python loops that mutate the
first match and then `break`/`return`). -/
def updateFirstBy (p : α → Bool) (f : α → α) : List α → List α
  | [] => []
  | a :: rest => if p a then f a :: rest else a :: updateFirstBy p f rest

/-! ### Global registry operations  (`project_manager.py`) -/

/-- `_add_to_recent_projects`: insert the new summary at position 0, then
keep only the first 20 entries. -/
def addToRecentProjectsOp (l : List RecentEntry) (e : RecentEntry) : List RecentEntry :=
  (e :: l).take 20

/-- `update_project`'s registry half: the first entry with the project id
gets the project's (unchanged) name and its new series count. -/
def updateProjectEntryOp (l : List RecentEntry) (pid nm : String) (cnt : Nat) :
    List RecentEntry :=
  updateFirstBy (fun e => e.projectId = pid)
    (fun e => { e with name := nm, seriesCount := cnt }) l

/-- `delete_project`: drop every entry with the project id. -/
def deleteProjectOp (l : List RecentEntry) (pid : String) : List RecentEntry :=
  l.filter (fun e => e.projectId ≠ pid)

/-- The mutations `project_manager.py` performs on `recentProjects`. -/
inductive RegistryOp where
  | addRecent (e : RecentEntry)
  | updateEntry (pid nm : String) (cnt : Nat)
  | deleteProject (pid : String)

def applyRegistryOp (l : List RecentEntry) : RegistryOp → List RecentEntry
  | .addRecent e => addToRecentProjectsOp l e
  | .updateEntry pid nm cnt => updateProjectEntryOp l pid nm cnt
  | .deleteProject pid => deleteProjectOp l pid

/-! ### Patient registry operations  (`patient_manager.py`) -/

/-- `create_patient`: append a fresh record with zero counts. -/
def createPatientOp (ps : List Patient) (pid nm mrn dob now : String) : List Patient :=
  ps ++ [⟨pid, nm, mrn, dob, now, now, 0, 0, []⟩]

/-- The patient-side half of `create_study_project`: append the study
summary (`seriesCount` 0) to the first matching patient and refresh its
`studyCount` and `lastOpened`. -/
def addStudyToPatientOp (ps : List Patient) (pid sid sdate pjid now : String) :
    List Patient :=
  updateFirstBy (fun p => p.patientId = pid)
    (fun p =>
      { p with
          studies := p.studies ++ [⟨sid, sdate, pjid, 0⟩],
          studyCount := p.studies.length + 1,
          lastOpened := now }) ps

/-- `update_study_series_count`: the first patient with the id whose
studies contain the study id gets that study's count replaced and its own
total recomputed as the sum over its studies; a match-less call raises
before mutating, modelled as the identity. -/
def updateStudySeriesCountOp (ps : List Patient) (pid sid : String) (n : Nat) :
    List Patient :=
  updateFirstBy (fun p => p.patientId = pid && p.studies.any (fun s => s.studyId = sid))
    (fun p =>
      let st := updateFirstBy (fun s => s.studyId = sid)
        (fun s => { s with seriesCount := n }) p.studies
      { p with studies := st, seriesCount := (st.map (fun s => s.seriesCount)).sum })
    ps

/-- `delete_patient`: remove the first patient with the id (ids are
unique); an unknown id raises before mutating, modelled by `eraseP`. -/
def deletePatientOp (ps : List Patient) (pid : String) : List Patient :=
  ps.eraseP (fun p => p.patientId = pid)

/-- The mutations the catalog store performs on the patient registry. -/
inductive PatientsOp where
  | createPatient (pid nm mrn dob now : String)
  | createStudyProject (pid sid sdate pjid now : String)
  | updateStudySeriesCount (pid sid : String) (n : Nat)
  | deletePatient (pid : String)

def applyPatientsOp (ps : List Patient) : PatientsOp → List Patient
  | .createPatient pid nm mrn dob now => createPatientOp ps pid nm mrn dob now
  | .createStudyProject pid sid sdate pjid now => addStudyToPatientOp ps pid sid sdate pjid now
  | .updateStudySeriesCount pid sid n => updateStudySeriesCountOp ps pid sid n
  | .deletePatient pid => deletePatientOp ps pid

/-- The invariant of §3: a patient's `seriesCount` is the sum of its
studies' `seriesCount` fields. -/
def patientInvariant (p : Patient) : Prop :=
  p.seriesCount = (p.studies.map (fun s => s.seriesCount)).sum

/-! ### Categorization merge  (`import_manager._merge_categorization`)

```python
for date, series_ids in new['byDate'].items():
    if date not in existing['byDate']:
        existing['byDate'][date] = []
    existing['byDate'][date].extend(series_ids)
```
One of the two identical per-dictionary halves; a dictionary is modelled
as an association list with unique keys. -/

/-- `existing.setdefault(k, []).extend(v)`. -/
def extendCategory (m : List (String × List String)) (k : String) (v : List String) :
    List (String × List String) :=
  if (m.lookup k).isSome then
    m.map (fun p => if p.1 = k then (p.1, p.2 ++ v) else p)
  else m ++ [(k, v)]

def mergeCategorizationMap (ex nw : List (String × List String)) :
    List (String × List String) :=
  nw.foldl (fun acc p => extendCategory acc p.1 p.2) ex

/-- The series-id list a categorization dictionary holds under a key
(a missing key holds the empty list). -/
def categoryIds (m : List (String × List String)) (k : String) : List String :=
  (m.lookup k).getD []

/-! ## Import job records and the progress channel -/

/-- One update of a job's in-memory record: its `status` and `progress`
fields (the `message` plays no role in any claim). -/
structure JobSnap where
  status : String
  progress : Nat
  deriving DecidableEq, Repr

/-- The record `get_status` serves; `progress` is absent from the
not-found default. -/
structure StatusRecord where
  status : String
  message : String
  progress : Option Nat
  deriving DecidableEq, Repr

/-- `get_status`: `self.active_imports.get(import_id, {'status': 'unknown',
'message': 'Import not found'})` over the in-memory job map. -/
def get_status (imports : List (String × StatusRecord)) (importId : String) :
    StatusRecord :=
  (imports.lookup importId).getD ⟨"unknown", "Import not found", none⟩

def isTerminalStatus (s : String) : Bool :=
  s = "completed" || s = "failed"

/-- `track_progress`: sample the record at successive instants `i`; when
the id is present, yield the sample, and stop right after yielding a
terminal one.  `fuel` bounds the number of loop iterations so the model is
total; the theorems show the yields are fuel-independent once a terminal
sample is reached. -/
def trackYields (sample : Nat → JobSnap) (present : Nat → Bool) :
    Nat → Nat → List JobSnap
  | 0, _ => []
  | fuel + 1, i =>
    if present i then
      if isTerminalStatus (sample i).status then [sample i]
      else sample i :: trackYields sample present fuel (i + 1)
    else trackYields sample present fuel (i + 1)

/-! ## The import orchestrator  (`import_manager._import_dicom`)

The run is driven by the outcomes of the filesystem steps that can
actually fail in the source: `_detect_dicomdir`'s directory walk
(`os.listdir` raises on an unreadable or non-directory source path) and
the target/staging directory setup (`get_project_path` on an unknown
project id, `os.makedirs`).  The processing step that follows is not
configurable: line 277 builds the child command from `sys.executable`,
but the module never imports `sys`, so every run that reaches it raises
`NameError` there, inside the `try` block.  Everything after that line —
the `Popen` call, the stderr PROGRESS loop, the exit-code check, the
`data.json` parsing, patient lookup and creation, study/project creation,
the relocation of the staging directory, and the manifest update (lines
283-382) — is unreachable dead code and is therefore not part of the
model of this function. -/

inductive StepTag where
  | detect
  | mkdirStep
  | popenStep
  | jpegPath
  | jpegCopy
  | jpegInfer
  | jpegManifest
  deriving DecidableEq, Repr

/-- The outcomes of the fallible steps `_import_dicom` can reach. -/
structure DicomCfg where
  isDicomdir : Bool
  detectFails : Bool
  dirFails : Bool
  deriving Repr

/-- The evolving state of one import call: the catalog documents, whether
the staging directory currently exists, every update pushed to the job
record so far, and — once an `except` handler has run — the step whose
exception it caught. -/
structure ImportRun where
  catalog : Catalog
  staging : Bool
  snaps : List JobSnap
  failedAt : Option StepTag
  deriving DecidableEq, Repr

def pushSnap (r : ImportRun) (st : String) (pr : Nat) : ImportRun :=
  { r with snaps := r.snaps ++ [⟨st, pr⟩] }

/-- `_import_dicom`'s `except` handler (lines 384-393): delete the staging
directory if it exists (`shutil.rmtree(..., ignore_errors=True)`) and mark
the job failed with progress 0. -/
def failRun (r : ImportRun) (t : StepTag) : ImportRun :=
  { r with staging := false, snaps := r.snaps ++ [⟨"failed", 0⟩], failedAt := some t }

/-- `_update_project_manifest`'s catalog mutations (reached only from the
JPEG workflow): `update_project` refreshes the registry entry's
(unchanged) name and series count, and for a patient-linked project
`update_study_series_count` runs. -/
def applyManifestOps (c : Catalog) (linked : Option (String × String)) (pjid : String)
    (seriesTotal : Nat) : Catalog :=
  { patients :=
      match linked with
      | some (pid, sid) => updateStudySeriesCountOp c.patients pid sid seriesTotal
      | none => c.patients,
    recentProjects := updateFirstBy (fun e => e.projectId = pjid)
      (fun e => { e with seriesCount := seriesTotal }) c.recentProjects }

/-- `_import_dicom` as written.  `projectId? = none` selects the
auto-patient workflow: the extracting updates are pushed and the staging
directory is created under `.temp_imports`.  Either way, after the
`processing`/10 update the command construction at line 277 raises
`NameError` (`sys` is unbound), the handler deletes the staging directory
if one was created, and the job ends `failed` with progress 0.  No run
reaches the relocation or mutates the catalog. -/
def importDicomRun (c0 : Catalog) (projectId? : Option String) (cfg : DicomCfg) :
    ImportRun :=
  let r : ImportRun := ⟨c0, false, [⟨"initializing", 0⟩], none⟩
  let r := pushSnap r "detecting" 2
  if cfg.detectFails then failRun r .detect
  else
    let r := if cfg.isDicomdir then pushSnap r "detecting" 4 else r
    match projectId? with
    | none =>
      let r := pushSnap r "extracting" 5
      let r := pushSnap r "extracting" 8
      if cfg.dirFails then failRun r .mkdirStep
      else
        let r := { r with staging := true }
        let r := pushSnap r "processing" 10
        failRun r .popenStep
    | some _ =>
      if cfg.dirFails then failRun r .mkdirStep
      else
        let r := pushSnap r "processing" 10
        failRun r .popenStep

/-! ## The JPEG import workflow  (`import_manager._import_jpeg`)

```python
try:
    project_path = self.project_manager.get_project_path(project_id)
    ... update {processing, 10} ...
    if os.path.exists(data_file):
        shutil.copytree(...); metadata = json.load(f)
        ... update {70} ...
    else:
        metadata = self._infer_metadata_from_folders(...)
        ... update {70} ...
    ... update {90} ...
    categorization = self._categorize_series(metadata['series'])
    self._update_project_manifest(...)
    ... update {completed, 100} ...
except Exception as e:
    ... update {failed, 0} ...
```
This function never touches `sys`, so a JPEG job can genuinely complete.
Both 70-updates differ only in their message, which is not modelled. -/

structure JpegCfg where
  pathFails : Bool
  hasDataJson : Bool
  copyFails : Bool
  inferFails : Bool
  manifestFails : Bool
  seriesIds : List String
  linkedIds : Option (String × String)
  deriving Repr

/-- `_import_jpeg`'s `except` handler (lines 453-458): it only updates the
job record (there is no staging directory in this workflow). -/
def failJpegRun (r : ImportRun) (t : StepTag) : ImportRun :=
  { r with snaps := r.snaps ++ [⟨"failed", 0⟩], failedAt := some t }

/-- Lines 429-451: the 90 update, categorize, manifest update, completion. -/
def jpegFinish (pjid : String) (cfg : JpegCfg) (r : ImportRun) : ImportRun :=
  let r := pushSnap r "processing" 90
  if cfg.manifestFails then failJpegRun r .jpegManifest
  else
    let r := { r with catalog :=
      applyManifestOps r.catalog cfg.linkedIds pjid cfg.seriesIds.length }
    pushSnap r "completed" 100

/-- `_import_jpeg` end to end.  `get_project_path` runs before the first
progress update and raises for an unknown (or absent) project id. -/
def importJpegRun (c0 : Catalog) (projectId? : Option String) (cfg : JpegCfg) :
    ImportRun :=
  let r : ImportRun := ⟨c0, false, [⟨"initializing", 0⟩], none⟩
  if projectId?.isNone || cfg.pathFails then failJpegRun r .jpegPath
  else
    let r := pushSnap r "processing" 10
    if cfg.hasDataJson then
      if cfg.copyFails then failJpegRun r .jpegCopy
      else jpegFinish (projectId?.getD "") cfg (pushSnap r "processing" 70)
    else
      if cfg.inferFails then failJpegRun r .jpegInfer
      else jpegFinish (projectId?.getD "") cfg (pushSnap r "processing" 70)

/-- `start_import` (lines 126-152): the source path is validated before
any state is created, then the job record is inserted into
`active_imports` with status `initializing` and progress 0, and only then
is `source_type` inspected.  An unknown type raises `ValueError` out of
`start_import` — past the record insertion — so the record stays in the
map at `initializing` forever; the model returns that permanent record. -/
def startImportRun (c0 : Catalog) (projectId? : Option String) (sourceType : String)
    (dcfg : DicomCfg) (jcfg : JpegCfg) : ImportRun :=
  if sourceType = "dicom" then importDicomRun c0 projectId? dcfg
  else if sourceType = "jpeg" then importJpegRun c0 projectId? jcfg
  else ⟨c0, false, [⟨"initializing", 0⟩], none⟩

/-- The progress values of a run's successive job-record updates. -/
def progressTrace (r : ImportRun) : List Nat :=
  r.snaps.map (fun s => s.progress)

/-- Executable check that a list of naturals is non-decreasing. -/
def monotoneProg : List Nat → Bool
  | [] => true
  | [_] => true
  | a :: b :: rest => a ≤ b && monotoneProg (b :: rest)

/-! ### Concrete fixtures used by witnesses and counterexamples -/

def emptyCatalog : Catalog := ⟨[], []⟩

/-- A DICOM run whose reachable fallible steps all succeed (the processing
step still raises, as it does in every run). -/
def cfgBase : DicomCfg :=
  { isDicomdir := false, detectFails := false, dirFails := false }

/-- Same run, but `_detect_dicomdir` raises. -/
def cfgDetectFail : DicomCfg := { cfgBase with detectFails := true }

/-- A JPEG run under which every step succeeds. -/
def jcfgBase : JpegCfg :=
  { pathFails := false, hasDataJson := true, copyFails := false,
    inferFails := false, manifestFails := false, seriesIds := ["1"],
    linkedIds := none }

/-- The record of a job created with an unknown source type, as sampled by
the poller: permanently `initializing`. -/
def stuckSample : Nat → JobSnap := fun _ => ⟨"initializing", 0⟩

def sliceW1 : Slice := ⟨"a.dcm", some "1.5", some "2"⟩
def sliceW2 : Slice := ⟨"b.dcm", some "-3.25", none⟩
def sliceW3 : Slice := ⟨"c.dcm", some "1.5", some "2"⟩

def patientW : Patient :=
  ⟨"pid-w", "DOE^JANE", "", "", "T0", "T0", 1, 0, [⟨"sid-w", "20240101", "proj-w", 0⟩]⟩

def patientWupd : Patient :=
  ⟨"pid-w", "DOE^JANE", "", "", "T0", "T0", 1, 5, [⟨"sid-w", "20240101", "proj-w", 5⟩]⟩

def sampleW : Nat → JobSnap :=
  fun n => if n = 2 then ⟨"completed", 100⟩ else ⟨"processing", 50⟩

/-! ## Helper lemmas -/

theorem monotoneProg_iff : ∀ l : List Nat, monotoneProg l = true ↔ List.Chain' (· ≤ ·) l
  | [] => by simp [monotoneProg]
  | [a] => by simp [monotoneProg]
  | a :: b :: rest => by
    rw [List.chain'_cons, ← monotoneProg_iff (b :: rest)]
    simp [monotoneProg, Bool.and_eq_true, decide_eq_true_eq]

theorem getD_map {α β : Type} (f : α → β) (l : List α) (i : Nat) (d : α) :
    (l.map f).getD i (f d) = f (l.getD i d) := by
  induction l generalizing i with
  | nil => simp
  | cons a rest ih =>
    cases i with
    | zero => simp
    | succ j => simp [ih j]

theorem ptSeven_toRat : ptSeven.toRat = 7 / 10 := by
  norm_num [ptSeven, PyFloat.toRat]

theorem pyZero_toRat : (PyFloat.mk 0 0).toRat = 0 := by
  norm_num [PyFloat.toRat]

/-- Case analysis of one `_import_dicom` run as written: every run raises
(at the latest at the processing step, whose `sys.executable` is an
unbound name), the staging directory is gone afterward, the catalog is
untouched, the final update is `failed` with progress 0, and the trace up
to that final update is non-decreasing. -/
theorem importDicomRun_facts (c0 : Catalog) (pid? : Option String) (cfg : DicomCfg) :
    (∃ t, (importDicomRun c0 pid? cfg).failedAt = some t) ∧
    (importDicomRun c0 pid? cfg).staging = false ∧
    (importDicomRun c0 pid? cfg).catalog = c0 ∧
    (importDicomRun c0 pid? cfg).snaps.getLast? = some ⟨"failed", 0⟩ ∧
    monotoneProg ((progressTrace (importDicomRun c0 pid? cfg)).dropLast) = true ∧
    (progressTrace (importDicomRun c0 pid? cfg)).getLast? = some 0 := by
  cases pid? <;> by_cases h1 : cfg.detectFails <;> by_cases h2 : cfg.isDicomdir <;>
    by_cases h3 : cfg.dirFails <;>
    simp [importDicomRun, pushSnap, failRun, progressTrace, monotoneProg, h1, h2, h3]

/-- Case analysis of one `_import_jpeg` run: a clean run's trace is
non-decreasing and ends `completed`/100; a caught exception ends the trace
with a `failed`/0 update after a non-decreasing prefix; and either way the
final update is terminal. -/
theorem importJpegRun_facts (c0 : Catalog) (pid? : Option String) (cfg : JpegCfg) :
    ((importJpegRun c0 pid? cfg).failedAt = none →
      monotoneProg (progressTrace (importJpegRun c0 pid? cfg)) = true ∧
      (importJpegRun c0 pid? cfg).snaps.getLast? = some ⟨"completed", 100⟩) ∧
    (∀ t, (importJpegRun c0 pid? cfg).failedAt = some t →
      monotoneProg ((progressTrace (importJpegRun c0 pid? cfg)).dropLast) = true ∧
      (progressTrace (importJpegRun c0 pid? cfg)).getLast? = some 0 ∧
      (importJpegRun c0 pid? cfg).snaps.getLast? = some ⟨"failed", 0⟩) ∧
    (∃ s, (importJpegRun c0 pid? cfg).snaps.getLast? = some s ∧
      isTerminalStatus s.status = true) := by
  cases pid? <;> by_cases hp : cfg.pathFails <;> by_cases hd : cfg.hasDataJson <;>
    by_cases hc : cfg.copyFails <;> by_cases hi : cfg.inferFails <;>
    by_cases hm : cfg.manifestFails <;>
    simp [importJpegRun, jpegFinish, pushSnap, failJpegRun, progressTrace,
      monotoneProg, isTerminalStatus, hp, hd, hc, hi, hm]

theorem trackYields_range' (sample : Nat → JobSnap) (present : Nat → Bool) (k : Nat)
    (hpres : ∀ n, present n = true)
    (hterm : isTerminalStatus (sample k).status = true)
    (hmin : ∀ i, i < k → isTerminalStatus (sample i).status = false) :
    ∀ fuel i, i ≤ k → k < i + fuel →
      trackYields sample present fuel i = (List.range' i (k + 1 - i)).map sample := by
  intro fuel
  induction fuel with
  | zero =>
    intro i h1 h2
    omega
  | succ fuel ih =>
    intro i h1 h2
    rw [trackYields, hpres i]
    simp only [if_true]
    by_cases hik : i = k
    · subst hik
      rw [if_pos hterm]
      have hone : i + 1 - i = 1 := by omega
      rw [hone]
      simp [List.range']
    · have hlt : i < k := lt_of_le_of_ne h1 hik
      rw [if_neg (by simp [hmin i hlt])]
      rw [ih (i + 1) (by omega) (by omega)]
      have hsplit : k + 1 - i = (k + 1 - (i + 1)) + 1 := by omega
      rw [hsplit, List.range']
      simp

/-- Paths are recoverable from sort keys. -/
theorem path_eq_of_sortKeyQ_eq {a b : Slice} (h : sortKeyQ a = sortKeyQ b) :
    a.path = b.path := by
  have h2 := congrArg (fun k : Lex (Rat × Lex (Int × List Char)) =>
    (ofLex (ofLex k).2).2) h
  simp only [sortKeyQ] at h2
  exact String.toList_inj.mp h2

instance : IsTotal Slice sliceLE :=
  ⟨fun a b => by
    rw [sliceLE_iff, sliceLE_iff]
    exact le_total _ _⟩

instance : IsTrans Slice sliceLE :=
  ⟨fun a b c hab hbc => by
    rw [sliceLE_iff] at hab hbc ⊢
    exact le_trans hab hbc⟩

instance : IsAntisymm Slice (fun a b => sortKeyQ a < sortKeyQ b) :=
  ⟨fun _ _ h1 h2 => absurd h2 (asymm h1)⟩

/-- Sorted output with pairwise-distinct paths is strictly sorted by key. -/
theorem sequenceSlices_pairwise_lt (l : List Slice)
    (hpaths : l.Pairwise (fun a b => a.path ≠ b.path)) :
    (sequenceSlices l).Pairwise (fun a b => sortKeyQ a < sortKeyQ b) := by
  have h1 : (sequenceSlices l).Pairwise sliceLE :=
    List.sorted_insertionSort sliceLE l
  have h2 : (sequenceSlices l).Pairwise (fun a b => a.path ≠ b.path) :=
    ((List.perm_insertionSort sliceLE l).pairwise_iff
      (fun h => Ne.symm h)).mpr hpaths
  refine (h1.and h2).imp ?_
  rintro a b ⟨hle, hne⟩
  exact lt_of_le_of_ne ((sliceLE_iff a b).mp hle)
    (fun hk => hne (path_eq_of_sortKeyQ_eq hk))

/-- A lookup over keys absent from an association list misses. -/
theorem lookup_eq_none_of_not_mem_keys {β : Type} (m : List (String × β)) (k : String)
    (h : k ∉ m.map Prod.fst) : m.lookup k = none := by
  induction m with
  | nil => rfl
  | cons p rest ih =>
    simp only [List.map_cons, List.mem_cons, not_or] at h
    rcases p with ⟨pk, pv⟩
    have hb : (k == pk) = false := by
      simp only [beq_eq_false_iff_ne, ne_eq]
      exact h.1
    simp only [List.lookup, hb]
    exact ih h.2

/-- Lookup through the value-modifying map `extendCategory` performs when
the key is present. -/
theorem lookup_map_extend (m : List (String × List String)) (k : String)
    (v : List String) (q : String) :
    (m.map (fun p => if p.1 = k then (p.1, p.2 ++ v) else p)).lookup q =
      (m.lookup q).map (fun l => if q = k then l ++ v else l) := by
  induction m with
  | nil => rfl
  | cons p rest ih =>
    rcases p with ⟨pk, pv⟩
    have hhead : (if (pk, pv).1 = k then ((pk, pv).1, (pk, pv).2 ++ v) else (pk, pv)) =
        (pk, if pk = k then pv ++ v else pv) := by
      by_cases hk : pk = k <;> simp [hk]
    rw [List.map_cons, hhead]
    by_cases hq : q = pk
    · subst hq
      have hb : (q == q) = true := by simp
      simp only [List.lookup, hb]
      by_cases hk : q = k <;> simp [hk]
    · have hb : (q == pk) = false := by
        simp only [beq_eq_false_iff_ne, ne_eq]
        exact hq
      simp only [List.lookup, hb]
      exact ih

theorem lookup_append_single (m : List (String × List String)) (k : String)
    (v : List String) (q : String) :
    (m ++ [(k, v)]).lookup q =
      ((m.lookup q).or (if q = k then some v else none)) := by
  induction m with
  | nil =>
    by_cases hq : q = k
    · simp [List.lookup, hq]
    · have hb : (q == k) = false := by
        simp only [beq_eq_false_iff_ne, ne_eq]
        exact hq
      simp [List.lookup, hb, hq]
  | cons p rest ih =>
    rcases p with ⟨pk, pv⟩
    by_cases hq : q = pk
    · subst hq
      have hb : (q == q) = true := by simp
      simp only [List.cons_append, List.lookup, hb, Option.or_some]
    · have hb : (q == pk) = false := by
        simp only [beq_eq_false_iff_ne, ne_eq]
        exact hq
      simp only [List.cons_append, List.lookup, hb]
      exact ih

theorem categoryIds_extend_self (m : List (String × List String)) (k : String)
    (v : List String) :
    categoryIds (extendCategory m k v) k = categoryIds m k ++ v := by
  unfold extendCategory categoryIds
  by_cases h : (m.lookup k).isSome
  · rw [if_pos h, lookup_map_extend]
    rcases Option.isSome_iff_exists.mp h with ⟨old, hold⟩
    simp [hold]
  · rw [if_neg h, lookup_append_single]
    rw [Option.not_isSome_iff_eq_none] at h
    simp [h]

theorem categoryIds_extend_other (m : List (String × List String)) (k : String)
    (v : List String) (q : String) (hq : q ≠ k) :
    categoryIds (extendCategory m k v) q = categoryIds m q := by
  unfold extendCategory categoryIds
  by_cases h : (m.lookup k).isSome
  · rw [if_pos h, lookup_map_extend]
    cases hlq : m.lookup q <;> simp [hq]
  · rw [if_neg h, lookup_append_single]
    cases hlq : m.lookup q <;> simp [hq]

/-- The merge equation: after `_merge_categorization`, every key holds the
existing list with the new ids appended (keys of a Python dictionary are
unique, hence the `Nodup` hypothesis on the incoming dictionary). -/
theorem mergeCategorizationMap_lookup (nw : List (String × List String)) :
    ∀ (ex : List (String × List String)) (k : String),
    (nw.map Prod.fst).Nodup →
    categoryIds (mergeCategorizationMap ex nw) k =
      categoryIds ex k ++ categoryIds nw k := by
  induction nw with
  | nil =>
    intro ex k _
    simp [mergeCategorizationMap, categoryIds, List.lookup]
  | cons p rest ih =>
    intro ex k hnd
    rcases p with ⟨k₀, v₀⟩
    simp only [List.map_cons, List.nodup_cons] at hnd
    have hstep : mergeCategorizationMap ex ((k₀, v₀) :: rest) =
        mergeCategorizationMap (extendCategory ex k₀ v₀) rest := rfl
    rw [hstep, ih _ k hnd.2]
    by_cases hk : k = k₀
    · subst hk
      have hrest : categoryIds rest k = [] := by
        unfold categoryIds
        rw [lookup_eq_none_of_not_mem_keys rest k hnd.1]
        rfl
      have hb : (k == k) = true := by simp
      rw [categoryIds_extend_self, hrest]
      unfold categoryIds
      simp only [List.lookup, hb]
      simp
    · have hb : (k == k₀) = false := by
        simp only [beq_eq_false_iff_ne, ne_eq]
        exact hk
      rw [categoryIds_extend_other ex k₀ v₀ k hk]
      unfold categoryIds
      simp only [List.lookup, hb]

theorem length_updateFirstBy {α : Type} (p : α → Bool) (f : α → α) (l : List α) :
    (updateFirstBy p f l).length = l.length := by
  induction l with
  | nil => rfl
  | cons a rest ih =>
    unfold updateFirstBy
    by_cases hp : p a <;> simp [hp, ih]

theorem mem_updateFirstBy {α : Type} (p : α → Bool) (f : α → α) (l : List α) (q : α)
    (h : q ∈ updateFirstBy p f l) :
    q ∈ l ∨ ∃ a ∈ l, p a = true ∧ q = f a := by
  induction l with
  | nil => cases h
  | cons a rest ih =>
    unfold updateFirstBy at h
    by_cases hp : p a
    · rw [if_pos hp] at h
      rcases List.mem_cons.mp h with hq | hq
      · exact Or.inr ⟨a, List.mem_cons_self a rest, hp, hq⟩
      · exact Or.inl (List.mem_cons_of_mem a hq)
    · rw [if_neg hp] at h
      rcases List.mem_cons.mp h with hq | hq
      · exact Or.inl (hq ▸ List.mem_cons_self a rest)
      · rcases ih hq with hin | ⟨b, hb, hpb, hfb⟩
        · exact Or.inl (List.mem_cons_of_mem a hin)
        · exact Or.inr ⟨b, List.mem_cons_of_mem a hb, hpb, hfb⟩

theorem convertLoop_eq (ok : Nat → Bool) :
    ∀ (l : List Slice) (i : Nat),
      convertLoop ok i l = ((List.range' i l.length).filter ok).map imageName := by
  intro l
  induction l with
  | nil =>
    intro i
    simp [convertLoop]
  | cons s rest ih =>
    intro i
    rw [convertLoop]
    have hr : List.range' i (s :: rest).length = i :: List.range' (i + 1) rest.length := by
      simp [List.range']
    rw [hr]
    by_cases hok : ok i
    · simp [List.filter_cons, hok, ih (i + 1)]
    · simp [List.filter_cons, hok, ih (i + 1)]

/-! ## Claim theorems -/

/-- C1: in the auto-patient workflow, every run fails before the
relocation of the staging directory — the command construction at line 277
raises `NameError` (`sys` is unbound) inside the `try` block, before any
catalog state is touched — and afterwards the staging directory no longer
exists, no Patient, Study or Project record has been created or mutated,
and the job record ends `failed`. -/
theorem claim_C1 (c0 : Catalog) (cfg : DicomCfg) :
    (∃ t, (importDicomRun c0 none cfg).failedAt = some t) ∧
    (importDicomRun c0 none cfg).staging = false ∧
    (importDicomRun c0 none cfg).catalog = c0 ∧
    (importDicomRun c0 none cfg).snaps.getLast? = some ⟨"failed", 0⟩ := by
  have h := importDicomRun_facts c0 none cfg
  exact ⟨h.1, h.2.1, h.2.2.1, h.2.2.2.1⟩

/-- C2 (amended): for every import job — DICOM, where every run fails, and
JPEG, where a run may complete or fail — the progress percent is
non-decreasing up to but excluding the transition to `failed`, which
writes progress 0; a JPEG run that never fails has a fully non-decreasing
trace. -/
theorem claim_C2_amended :
    (∀ (c0 : Catalog) (pid? : Option String) (cfg : DicomCfg),
      List.Chain' (· ≤ ·) ((progressTrace (importDicomRun c0 pid? cfg)).dropLast) ∧
      (progressTrace (importDicomRun c0 pid? cfg)).getLast? = some 0) ∧
    (∀ (c0 : Catalog) (pid? : Option String) (cfg : JpegCfg),
      ((importJpegRun c0 pid? cfg).failedAt = none →
        List.Chain' (· ≤ ·) (progressTrace (importJpegRun c0 pid? cfg))) ∧
      (∀ t, (importJpegRun c0 pid? cfg).failedAt = some t →
        List.Chain' (· ≤ ·) ((progressTrace (importJpegRun c0 pid? cfg)).dropLast) ∧
        (progressTrace (importJpegRun c0 pid? cfg)).getLast? = some 0)) := by
  constructor
  · intro c0 pid? cfg
    have h := importDicomRun_facts c0 pid? cfg
    exact ⟨(monotoneProg_iff _).mp h.2.2.2.2.1, h.2.2.2.2.2⟩
  · intro c0 pid? cfg
    have h := importJpegRun_facts c0 pid? cfg
    exact ⟨fun hn => (monotoneProg_iff _).mp ((h.1 hn).1),
      fun t ht => ⟨(monotoneProg_iff _).mp (h.2.1 t ht).1, (h.2.1 t ht).2.1⟩⟩

/-- C2 witness: a concrete clean JPEG run has a fully non-decreasing
progress trace. -/
theorem claim_C2_witness :
    List.Chain' (· ≤ ·)
      (progressTrace (importJpegRun emptyCatalog (some "proj-1") jcfgBase)) :=
  (claim_C2_amended.2 emptyCatalog (some "proj-1") jcfgBase).1 (by decide)

/-- C2 counterexample: the claim as stated is false.  The DICOM run in
which every reachable fallible step succeeds — still failing at the
processing step, whose `sys.executable` is an unbound name — has trace
`[0, 2, 5, 8, 10, 0]`: the transition to `failed` resets progress to 0
after it had reached 10, so the trace is not non-decreasing. -/
theorem claim_C2_counterexample :
    progressTrace (importDicomRun emptyCatalog none cfgBase) = [0, 2, 5, 8, 10, 0] ∧
    (¬ List.Chain' (· ≤ ·)
      (progressTrace (importDicomRun emptyCatalog none cfgBase))) := by
  refine ⟨by decide, fun h => ?_⟩
  have h2 := (monotoneProg_iff _).mpr h
  rw [show monotoneProg
    (progressTrace (importDicomRun emptyCatalog none cfgBase)) = false
    from by decide] at h2
  exact Bool.noConfusion h2

/-- C4: the slice sequencer sorts by the key
`(sliceLocation float with default 0.0, instanceNumber int with default 0,
path)`; the output is a permutation of the input, sorted under the key
order, and — because distinct files have distinct paths — identical for
every permutation of the input, even when spatial metadata is absent or
duplicated. -/
theorem claim_C4 (l₁ l₂ : List Slice) (hperm : l₁.Perm l₂)
    (hpaths : l₁.Pairwise (fun a b => a.path ≠ b.path)) :
    (sequenceSlices l₁).Perm l₁ ∧
    (sequenceSlices l₁).Sorted sliceLE ∧
    sequenceSlices l₁ = sequenceSlices l₂ := by
  refine ⟨List.perm_insertionSort _ _, List.sorted_insertionSort _ _, ?_⟩
  have hpaths₂ : l₂.Pairwise (fun a b => a.path ≠ b.path) :=
    (hperm.pairwise_iff (fun h => Ne.symm h)).mp hpaths
  have s1 := sequenceSlices_pairwise_lt l₁ hpaths
  have s2 := sequenceSlices_pairwise_lt l₂ hpaths₂
  have hp : (sequenceSlices l₁).Perm (sequenceSlices l₂) :=
    (List.perm_insertionSort _ _).trans
      (hperm.trans (List.perm_insertionSort _ _).symm)
  exact List.eq_of_perm_of_sorted hp s1 s2

/-- C4 witness: two shuffles of a concrete slice list (one pair sharing
all spatial metadata) sequence identically. -/
theorem claim_C4_witness :
    sequenceSlices [sliceW1, sliceW2, sliceW3] =
      sequenceSlices [sliceW3, sliceW1, sliceW2] :=
  (claim_C4 [sliceW1, sliceW2, sliceW3] [sliceW3, sliceW1, sliceW2]
    (by decide) (by decide)).2.2

/-- C5: the per-slice half of the claim is true of `process_mri.py` — a
failed single-slice conversion is skipped while every other slice of the
series is still converted (the output list is exactly the successful
positions, in order).  The exit-status half is dead code in
`import_manager.py`: every run that survives detection and directory setup
fails at the command construction of the processing step (`sys` is never
imported), so the conversion tool is never launched and its exit status is
never examined. -/
theorem claim_C5 :
    (∀ (slices : List Slice) (ok : Nat → Bool),
      convertSeriesImages slices ok =
        ((List.range slices.length).filter ok).map imageName) ∧
    (∀ (slices : List Slice) (ok : Nat → Bool) (j : Nat), j < slices.length →
      ok j = true → imageName j ∈ convertSeriesImages slices ok) ∧
    (∀ (c0 : Catalog) (pid? : Option String) (cfg : DicomCfg),
      cfg.detectFails = false → cfg.dirFails = false →
      (importDicomRun c0 pid? cfg).failedAt = some .popenStep ∧
      (importDicomRun c0 pid? cfg).snaps.getLast? = some ⟨"failed", 0⟩) := by
  have heq : ∀ (slices : List Slice) (ok : Nat → Bool),
      convertSeriesImages slices ok =
        ((List.range slices.length).filter ok).map imageName := by
    intro slices ok
    unfold convertSeriesImages
    rw [convertLoop_eq, List.range_eq_range']
  refine ⟨heq, ?_, ?_⟩
  · intro slices ok j hj hok
    rw [heq]
    exact List.mem_map_of_mem imageName
      (List.mem_filter.mpr ⟨List.mem_range.mpr hj, hok⟩)
  · intro c0 pid? cfg h1 h2
    cases pid? <;> by_cases hd : cfg.isDicomdir <;>
      simp [importDicomRun, pushSnap, failRun, h1, h2, hd]

/-- C5 witness: with the second of three slices failing conversion the
other two are written; the run in which every reachable fallible step
succeeds still fails at the processing step. -/
theorem claim_C5_witness :
    (imageName 2 ∈ convertSeriesImages [sliceW1, sliceW2, sliceW3]
      (fun i => i ≠ 1)) ∧
    ((importDicomRun emptyCatalog none cfgBase).failedAt = some .popenStep ∧
      (importDicomRun emptyCatalog none cfgBase).snaps.getLast? =
        some ⟨"failed", 0⟩) :=
  ⟨claim_C5.2.1 [sliceW1, sliceW2, sliceW3] (fun i => i ≠ 1) 2 (by decide)
      (by decide),
    claim_C5.2.2 emptyCatalog none cfgBase rfl rfl⟩

/-- C6: the categorization merge is append-only without deduplication:
after the merge each key's list is the existing list with the new series
ids appended, so a series id present in both lists appears at least
twice. -/
theorem claim_C6 :
    (∀ (ex nw : List (String × List String)) (k : String),
      (nw.map Prod.fst).Nodup →
      categoryIds (mergeCategorizationMap ex nw) k =
        categoryIds ex k ++ categoryIds nw k) ∧
    (∀ (ex nw : List (String × List String)) (k sid : String),
      (nw.map Prod.fst).Nodup →
      sid ∈ categoryIds ex k → sid ∈ categoryIds nw k →
      2 ≤ (categoryIds (mergeCategorizationMap ex nw) k).count sid) := by
  refine ⟨fun ex nw k h => mergeCategorizationMap_lookup nw ex k h, ?_⟩
  intro ex nw k sid hnd hex hnw
  rw [mergeCategorizationMap_lookup nw ex k hnd, List.count_append]
  have h1 : 0 < (categoryIds ex k).count sid := List.count_pos_iff.mpr hex
  have h2 : 0 < (categoryIds nw k).count sid := List.count_pos_iff.mpr hnw
  omega

/-- C6 witness: re-importing the same series id under the same date key
makes it appear twice. -/
theorem claim_C6_witness :
    categoryIds
      (mergeCategorizationMap [("20240101", ["s1"])] [("20240101", ["s1"])])
      "20240101" = ["s1", "s1"] ∧
    2 ≤ (categoryIds
      (mergeCategorizationMap [("20240101", ["s1"])] [("20240101", ["s1"])])
      "20240101").count "s1" :=
  ⟨(claim_C6.1 [("20240101", ["s1"])] [("20240101", ["s1"])] "20240101"
      (by decide)).trans (by decide),
    claim_C6.2 [("20240101", ["s1"])] [("20240101", ["s1"])] "20240101" "s1"
      (by decide) (by decide) (by decide)⟩

/-- C7: every mutation of the global registry keeps `recentProjects` at
20 entries or fewer, and creating a project places its summary at the
front. -/
theorem claim_C7 :
    (∀ (l : List RecentEntry) (op : RegistryOp), l.length ≤ 20 →
      (applyRegistryOp l op).length ≤ 20) ∧
    (∀ (l : List RecentEntry) (e : RecentEntry),
      (applyRegistryOp l (.addRecent e)).head? = some e) := by
  constructor
  · intro l op hl
    cases op with
    | addRecent e =>
      simp only [applyRegistryOp, addToRecentProjectsOp, List.length_take]
      omega
    | updateEntry pid nm cnt =>
      rw [applyRegistryOp, updateProjectEntryOp, length_updateFirstBy]
      exact hl
    | deleteProject pid =>
      exact le_trans (List.length_filter_le _ _) hl
  · intro l e
    rw [applyRegistryOp, addToRecentProjectsOp,
      show (e :: l).take 20 = e :: l.take 19 from rfl]
    rfl

/-- C7 witness: deleting from a small registry keeps the bound; adding an
entry puts it in front. -/
theorem claim_C7_witness :
    (applyRegistryOp [] (.deleteProject "p")).length ≤ 20 :=
  claim_C7.1 [] (.deleteProject "p") (by decide)

/-- C8: every catalog-store operation on the patient registry preserves
the invariant that a patient's `seriesCount` equals the sum of its
studies' `seriesCount` fields. -/
theorem claim_C8 (ps : List Patient) (op : PatientsOp)
    (hinv : ∀ p ∈ ps, patientInvariant p) :
    ∀ q ∈ applyPatientsOp ps op, patientInvariant q := by
  cases op with
  | createPatient pid nm mrn dob now =>
    intro q hq
    rcases List.mem_append.mp hq with hin | hnew
    · exact hinv q hin
    · rw [List.mem_singleton.mp hnew]
      simp [patientInvariant]
  | createStudyProject pid sid sdate pjid now =>
    intro q hq
    rcases mem_updateFirstBy _ _ _ _ hq with hin | ⟨a, ha, _, hfa⟩
    · exact hinv q hin
    · subst hfa
      have := hinv a ha
      simp only [patientInvariant] at this ⊢
      simp [this]
  | updateStudySeriesCount pid sid n =>
    intro q hq
    rcases mem_updateFirstBy _ _ _ _ hq with hin | ⟨a, _, _, hfa⟩
    · exact hinv q hin
    · subst hfa
      simp [patientInvariant]
  | deletePatient pid =>
    intro q hq
    exact hinv q ((List.eraseP_sublist ps).subset hq)

/-- C8 witness: updating a study's series count to 5 restores the
invariant on the concrete updated patient. -/
theorem claim_C8_witness : patientInvariant patientWupd :=
  claim_C8 [patientW] (.updateStudySeriesCount "pid-w" "sid-w" 5)
    (fun p hp => by
      rw [List.mem_singleton.mp hp]
      rfl)
    patientWupd (by decide)

/-- C9 (amended): the progress polling iterator yields one snapshot per
sampling instant while the job is present, yields the first terminal
snapshot, and then stops for good — the yield list is
`sample 0 .. sample k` for the first terminal instant `k`, independent of
any larger fuel.  Every dispatched run — DICOM or JPEG — ends with a
terminal (`completed` or `failed`) record, so polling such a job
terminates; but `start_import` inserts the job record before validating
`source_type`, so a job started with an unknown type keeps its
`initializing` record forever, and `initializing` is not terminal. -/
theorem claim_C9 :
    (∀ (sample : Nat → JobSnap) (present : Nat → Bool) (k fuel : Nat),
      (∀ n, present n = true) →
      isTerminalStatus (sample k).status = true →
      (∀ i, i < k → isTerminalStatus (sample i).status = false) →
      k < fuel →
      trackYields sample present fuel 0 = (List.range (k + 1)).map sample) ∧
    (∀ (c0 : Catalog) (pid? : Option String) (cfg : DicomCfg),
      ∃ s, (importDicomRun c0 pid? cfg).snaps.getLast? = some s ∧
        isTerminalStatus s.status = true) ∧
    (∀ (c0 : Catalog) (pid? : Option String) (cfg : JpegCfg),
      ∃ s, (importJpegRun c0 pid? cfg).snaps.getLast? = some s ∧
        isTerminalStatus s.status = true) ∧
    (∀ (c0 : Catalog) (pid? : Option String) (st : String)
      (dcfg : DicomCfg) (jcfg : JpegCfg), st ≠ "dicom" → st ≠ "jpeg" →
      (startImportRun c0 pid? st dcfg jcfg).snaps = [⟨"initializing", 0⟩] ∧
      isTerminalStatus "initializing" = false) := by
  refine ⟨?_, ?_, ?_, ?_⟩
  · intro sample present k fuel hp ht hm hf
    rw [trackYields_range' sample present k hp ht hm fuel 0 (by omega) (by omega)]
    rw [List.range_eq_range']
    simp
  · intro c0 pid? cfg
    exact ⟨⟨"failed", 0⟩, (importDicomRun_facts c0 pid? cfg).2.2.2.1, by decide⟩
  · intro c0 pid? cfg
    exact (importJpegRun_facts c0 pid? cfg).2.2
  · intro c0 pid? st dcfg jcfg h1 h2
    unfold startImportRun
    rw [if_neg h1, if_neg h2]
    exact ⟨rfl, by decide⟩

/-- C9 counterexample: the claim as stated is false.  A job started with
source type `png` is recorded at `initializing`/0 and never advances:
after 5 polling steps the yields are 5 copies of that record, one more
step yields one more copy, and no terminal snapshot ever arrives — the
source's `while import_id in active_imports` loop never exits. -/
theorem claim_C9_counterexample :
    (startImportRun emptyCatalog none "png" cfgBase jcfgBase).snaps =
      [⟨"initializing", 0⟩] ∧
    isTerminalStatus "initializing" = false ∧
    trackYields stuckSample (fun _ => true) 5 0 =
      List.replicate 5 ⟨"initializing", 0⟩ ∧
    trackYields stuckSample (fun _ => true) 6 0 ≠
      trackYields stuckSample (fun _ => true) 5 0 := by
  exact ⟨by decide, by decide, by decide, by decide⟩

/-- C9 witness: for a present job that becomes terminal at the third
sample, nine fuel steps yield exactly the three samples and no more. -/
theorem claim_C9_witness :
    trackYields sampleW (fun _ => true) 9 0 = (List.range 3).map sampleW :=
  claim_C9.1 sampleW (fun _ => true) 2 9 (fun _ => rfl) (by decide) (by decide)
    (by decide)

/-- C10: querying the status of an import id absent from the in-memory job
map never raises; it returns the record with status `unknown` and message
`Import not found`. -/
theorem claim_C10 (m : List (String × StatusRecord)) (importId : String)
    (h : importId ∉ m.map Prod.fst) :
    get_status m importId = ⟨"unknown", "Import not found", none⟩ := by
  unfold get_status
  rw [lookup_eq_none_of_not_mem_keys m importId h]
  rfl

theorem get_orientation_label_some_eq (s : String) (vals : List PyFloat)
    (hs : ¬ s = "")
    (hm : (orientationTokens s).mapM (fun t => parseFloat (String.mk t)) = some vals) :
    get_orientation_label (some s) =
      (if (vals.map PyFloat.vabs).length < 6 then ""
       else if PyFloat.vlt ptSeven ((vals.map PyFloat.vabs).getD 0 ⟨0, 0⟩) ∧
           PyFloat.vlt ptSeven ((vals.map PyFloat.vabs).getD 4 ⟨0, 0⟩) then "Axial"
       else if PyFloat.vlt ptSeven ((vals.map PyFloat.vabs).getD 0 ⟨0, 0⟩) ∧
           PyFloat.vlt ptSeven ((vals.map PyFloat.vabs).getD 5 ⟨0, 0⟩) then "Coronal"
       else if PyFloat.vlt ptSeven ((vals.map PyFloat.vabs).getD 1 ⟨0, 0⟩) ∧
           PyFloat.vlt ptSeven ((vals.map PyFloat.vabs).getD 5 ⟨0, 0⟩) then "Sagittal"
       else "") := by
  simp only [get_orientation_label]
  rw [if_neg hs, hm]

theorem get_orientation_label_some_none (s : String) (hs : ¬ s = "")
    (hm : (orientationTokens s).mapM (fun t => parseFloat (String.mk t)) = none) :
    get_orientation_label (some s) = "" := by
  simp only [get_orientation_label]
  rw [if_neg hs, hm]

/-- C3 (amended): the classifier splits the raw orientation-cosines string
on backslashes only — a space-separated sextuple is a `float` parse error
and yields `""`.  On backslash-separated input it takes the magnitudes
`[r1,r2,r3,c1,c2,c3]` and applies, in order: `|r1|>0.7 ∧ |c2|>0.7 →
"Axial"`, `|r1|>0.7 ∧ |c3|>0.7 → "Coronal"`, `|r2|>0.7 ∧ |c3|>0.7 →
"Sagittal"`, else `""`; fewer than six values or any parse error yield
`""`. -/
theorem claim_C3_amended :
    (∀ (s : String) (vals : List PyFloat), s ≠ "" →
      (orientationTokens s).mapM (fun t => parseFloat (String.mk t)) = some vals →
      get_orientation_label (some s) =
        orientationFromMagnitudes (vals.map (fun v => |v.toRat|))) ∧
    (∀ s : String, s ≠ "" →
      (orientationTokens s).mapM (fun t => parseFloat (String.mk t)) = none →
      get_orientation_label (some s) = "") ∧
    get_orientation_label none = "" ∧
    get_orientation_label (some "") = "" ∧
    get_orientation_label (some "1\\0\\0\\0\\1\\0") = "Axial" ∧
    get_orientation_label (some "1\\0\\0\\0\\0\\1") = "Coronal" ∧
    get_orientation_label (some "0\\1\\0\\0\\0\\1") = "Sagittal" ∧
    get_orientation_label (some "0\\0\\0\\0\\0\\0") = "" ∧
    get_orientation_label (some "1\\0\\0") = "" ∧
    get_orientation_label (some "1 0 0 0 1 0") = "" := by
  refine ⟨?_, get_orientation_label_some_none, by decide, by decide, by decide,
    by decide, by decide, by decide, by decide, by decide⟩
  intro s vals hs hm
  have hiff : ∀ i : Nat,
      ((vals.map (fun v => |v.toRat|)).getD i 0 > 7/10) ↔
        PyFloat.vlt ptSeven ((vals.map PyFloat.vabs).getD i ⟨0, 0⟩) := by
    intro i
    have hmapeq : vals.map (fun v => |v.toRat|) =
        (vals.map PyFloat.vabs).map PyFloat.toRat := by
      rw [List.map_map]
      congr 1
      funext v
      simp [Function.comp, PyFloat.toRat_vabs]
    rw [hmapeq, ← pyZero_toRat, getD_map PyFloat.toRat (vals.map PyFloat.vabs) i ⟨0, 0⟩]
    rw [gt_iff_lt, ← ptSeven_toRat]
    exact PyFloat.toRat_lt_iff ptSeven _
  rw [get_orientation_label_some_eq s vals hs hm]
  unfold orientationFromMagnitudes
  have hlen : (vals.map (fun v => |v.toRat|)).length = (vals.map PyFloat.vabs).length := by
    simp
  simp only [hlen, hiff 0, hiff 1, hiff 4, hiff 5]

/-- C3 counterexample: the claim as stated is false — it promises that the
space-separated `[1,0,0,0,1,0]` maps to `"Axial"`, but the code splits on
backslashes only, so `float(" 1 0 0 0 1 0 ")` raises and the classifier
returns `""`. -/
theorem claim_C3_counterexample :
    get_orientation_label (some "1 0 0 0 1 0") = "" ∧
    get_orientation_label (some "1 0 0 0 1 0") ≠ "Axial" := by
  exact ⟨by decide, by decide⟩

/-- C3 witness: the general refinement applied to a concrete
backslash-separated sextuple of decimals. -/
theorem claim_C3_witness :
    get_orientation_label (some "0.9\\0.1\\0.1\\0.1\\0.8\\0.1") =
      orientationFromMagnitudes
        (([⟨9, 1⟩, ⟨1, 1⟩, ⟨1, 1⟩, ⟨1, 1⟩, ⟨8, 1⟩, ⟨1, 1⟩] : List PyFloat).map
          (fun v => |v.toRat|)) :=
  claim_C3_amended.1 "0.9\\0.1\\0.1\\0.1\\0.8\\0.1"
    [⟨9, 1⟩, ⟨1, 1⟩, ⟨1, 1⟩, ⟨1, 1⟩, ⟨8, 1⟩, ⟨1, 1⟩] (by decide) (by decide)

/-- C10 witness: a lookup for an id not in a one-entry map returns the
not-found record. -/
theorem claim_C10_witness :
    get_status [("import_1", ⟨"completed", "Import completed", some 100⟩)]
      "import_2" = ⟨"unknown", "Import not found", none⟩ :=
  claim_C10 [("import_1", ⟨"completed", "Import completed", some 100⟩)]
    "import_2" (by decide)

end MRi
